import Mathlib

/-!
Verification of the pdfcraft processing pipeline against its specification.

The definitions below are shallow embeddings of the TypeScript sources:
  * `src/lib/pdf/processors/rasterize.ts`  (RasterizePDFProcessor, parsePageRange)
  * `src/lib/pdf/processors/pdf-to-docx.ts` (PDFToDocxProcessor, worker bridge)
  * `public/workers/pdf-to-docx.worker.js`  (worker message script)
  * the watermark processor (WatermarkProcessor, getPageIndices)
  * the PDF-to-image processor (PDFToImageProcessor, page grouping)

JavaScript strings are embedded as `List Char` (with structural models of
`trim`, `split`, `parseInt`), and JavaScript numbers that matter only as
small exact values (page numbers, percentages, millimetre dimensions) as
`Int`/`ℚ`; every computation in the claims stays well inside the exactly
representable range of doubles, and IEEE rounding is monotone, so order and
equality facts transfer.
-/

namespace PDFCraft

/-! ## JavaScript string and number primitives used by the sources -/

/-- JS `String.prototype.trim`: strip whitespace from both ends. -/
def jsTrim (l : List Char) : List Char :=
  ((l.dropWhile Char.isWhitespace).reverse.dropWhile Char.isWhitespace).reverse

/-- JS `String.prototype.split` with a single-character separator: every
occurrence of the separator starts a new piece, and empty pieces are kept
(`"a,,b".split(',') = ["a","","b"]`, `"".split(',') = [""]`). -/
def jsSplit (sep : Char) : List Char → List (List Char)
  | [] => [[]]
  | c :: cs =>
    if c = sep then [] :: jsSplit sep cs
    else
      match jsSplit sep cs with
      | [] => [[c]]
      | t :: ts => (c :: t) :: ts

/-- JS `parseInt(s, 10)` on an already-trimmed token: an optional sign
followed by the longest leading run of decimal digits; `none` models `NaN`
(no digits). Trailing non-digit characters are ignored, as in JS. -/
def parseIntJS (s : List Char) : Option Int :=
  let p : Int × List Char :=
    match s with
    | '+' :: t => (1, t)
    | '-' :: t => (-1, t)
    | t => (1, t)
  let digits := p.2.takeWhile Char.isDigit
  if digits.isEmpty then none
  else some (p.1 * (digits.foldl (fun a c => a * 10 + (c.toNat - '0'.toNat)) 0 : Nat))

/-- Prefix test on character lists. -/
def listIsPrefix : List Char → List Char → Bool
  | [], _ => true
  | _ :: _, [] => false
  | a :: as, b :: bs => a = b && listIsPrefix as bs

/-- JS `s.includes(pat)`: substring containment. -/
def listIncludes (pat : List Char) : List Char → Bool
  | [] => pat.isEmpty
  | c :: cs => listIsPrefix pat (c :: cs) || listIncludes pat cs

/-- JS `s.endsWith(pat)`: suffix test. -/
def listEndsWith (pat l : List Char) : Bool :=
  listIsPrefix pat.reverse l.reverse

/-- JS `Set.prototype.add` on a set represented as its insertion-ordered
list of distinct elements. -/
def setAdd (l : List Int) (x : Int) : List Int :=
  if x ∈ l then l else l ++ [x]

/-! ## parsePageRange (rasterize.ts lines 63-88) -/

/-- The integers of the interval `[lo, hi]` in increasing order: the pages
added by the JS loop `for (let i = lo; i <= hi; i++)`. -/
def jsRange (lo hi : Int) : List Int :=
  if lo ≤ hi then (List.range (hi - lo + 1).toNat).map (fun k => lo + k) else []

/-- Pages contributed by one comma-separated (already trimmed) token of the
range string, following rasterize.ts lines 71-85: a token containing a dash
is split on dashes, its first two pieces parsed as the endpoints `start` and
`end` of the clipped interval `[max 1 start, min totalPages end]`; otherwise
the token is a single page number, kept iff it lies in `[1, totalPages]`.
Unparsable pieces (`NaN`) contribute nothing. -/
def tokenPages (part : List Char) (totalPages : Nat) : List Int :=
  if part.contains '-' then
    match (jsSplit '-' part).map (fun n => parseIntJS (jsTrim n)) with
    | some s :: some e :: _ => jsRange (max 1 s) (min (totalPages : Int) e)
    | _ => []
  else
    match parseIntJS part with
    | some p => if 1 ≤ p ∧ p ≤ (totalPages : Int) then [p] else []
    | none => []

/-- The pages collected by the loop of rasterize.ts lines 71-85: the JS
`Set<number>` named `pages`, as its insertion-ordered list of distinct
elements. -/
def collectedPages (rangeStr : String) (totalPages : Nat) : List Int :=
  ((jsSplit ',' rangeStr.toList).map jsTrim).foldl
    (fun acc part => (tokenPages part totalPages).foldl setAdd acc) []

/-- The full page list `[1..totalPages]`:
`Array.from({length: totalPages}, (_, i) => i + 1)`. -/
def fullPageList (totalPages : Nat) : List Int :=
  (List.range totalPages).map (fun (i : Nat) => (i : Int) + 1)

/-- rasterize.ts `parsePageRange`: an empty/whitespace range string yields
`[1..totalPages]`; otherwise the collected page set, sorted ascending
(`Array.from(pages).sort((a, b) => a - b)`). -/
def parsePageRange (rangeStr : String) (totalPages : Nat) : List Int :=
  if jsTrim rangeStr.toList = [] then
    fullPageList totalPages
  else
    List.insertionSort (· ≤ ·) (collectedPages rangeStr totalPages)

/-! ### Structural properties of parsePageRange -/

theorem setAdd_nodup {l : List Int} (h : l.Nodup) (x : Int) : (setAdd l x).Nodup := by
  unfold setAdd
  split
  · exact h
  · rw [← List.concat_eq_append]
    exact List.Nodup.concat ‹x ∉ l› h

theorem foldl_setAdd_nodup (xs : List Int) {acc : List Int} (h : acc.Nodup) :
    (xs.foldl setAdd acc).Nodup := by
  induction xs generalizing acc with
  | nil => exact h
  | cons y ys ih => exact ih (setAdd_nodup h y)

theorem collectedPages_nodup (s : String) (N : Nat) : (collectedPages s N).Nodup := by
  unfold collectedPages
  generalize ((jsSplit ',' s.toList).map jsTrim) = parts
  have main : ∀ (ps : List (List Char)) (acc : List Int), acc.Nodup →
      (ps.foldl (fun acc part => (tokenPages part N).foldl setAdd acc) acc).Nodup := by
    intro ps
    induction ps with
    | nil => intro acc h; exact h
    | cons p pt ih => intro acc h; exact ih _ (foldl_setAdd_nodup _ h)
  exact main parts [] List.nodup_nil

theorem parsePageRange_sorted (s : String) (N : Nat) :
    (parsePageRange s N).Sorted (· < ·) := by
  unfold parsePageRange
  split
  · refine List.Pairwise.map (fun (i : Nat) => (i : Int) + 1) ?_ (List.sorted_lt_range N)
    intro a b h
    show (a : Int) + 1 < (b : Int) + 1
    omega
  · refine List.Sorted.lt_of_le (List.sorted_insertionSort _ _) ?_
    exact ((List.perm_insertionSort _ _).nodup_iff).mpr (collectedPages_nodup s N)

theorem foldl_empty_tokens (N : Nat) :
    ∀ (ps : List (List Char)) (acc : List Int), (∀ p ∈ ps, tokenPages p N = []) →
      ps.foldl (fun acc part => (tokenPages part N).foldl setAdd acc) acc = acc := by
  intro ps
  induction ps with
  | nil => intro acc _; rfl
  | cons p pt ih =>
    intro acc h
    have hp : tokenPages p N = [] := h p (List.mem_cons_self p pt)
    simp only [List.foldl_cons, hp, List.foldl_nil]
    exact ih acc (fun q hq => h q (List.mem_cons_of_mem p hq))

/-! ### Claim C3 -/

/-- C3: for every totalPages `N ≥ 1`, `parsePageRange "" N` returns
`[1..N]`; `parsePageRange "2-1" N` adds no pages from the reversed token;
`parsePageRange "1-3,2,5" 5 = [1,2,3,5]` (deduplicated, sorted ascending);
`parsePageRange "0,99" 5 = []`; and for every input string the (total)
function returns a strictly sorted duplicate-free list, invalid tokens
having been silently dropped. -/
theorem C3_parsePageRange (N : Nat) (hN : 1 ≤ N) :
    parsePageRange "" N = fullPageList N
    ∧ parsePageRange "2-1" N = []
    ∧ parsePageRange "1-3,2,5" 5 = [1, 2, 3, 5]
    ∧ parsePageRange "0,99" 5 = []
    ∧ ∀ (s : String) (M : Nat), (parsePageRange s M).Sorted (· < ·) := by
  refine ⟨?_, ?_, by decide, by decide, fun s M => parsePageRange_sorted s M⟩
  · simp [parsePageRange, jsTrim]
  · simp [parsePageRange, collectedPages, tokenPages, jsSplit, jsTrim, parseIntJS, jsRange]

/-- C3 witness at `N = 3`. -/
theorem C3_parsePageRange_witness :
    parsePageRange "" 3 = fullPageList 3 :=
  (C3_parsePageRange 3 (by decide)).1

/-! ### Claim C4 -/

/-- C4 counterexample: the claim says an all-invalid non-empty range string
yields the full page set, but `parsePageRange "abc" 1` yields `[]`, not
`[1]`. -/
theorem C4_counterexample :
    parsePageRange "abc" 1 = [] ∧ ([] : List Int) ≠ [1] := by
  constructor
  · decide
  · decide

/-- C4 amended: only an empty/whitespace range string yields the full page
set `[1..N]`; a non-empty range string all of whose tokens are invalid
(contribute no pages) yields the empty selection `[]` instead. -/
theorem C4_amended (s : String) (N : Nat) (hN : 1 ≤ N) :
    (jsTrim s.toList = [] → parsePageRange s N = fullPageList N)
    ∧ (jsTrim s.toList ≠ [] →
        (∀ p ∈ (jsSplit ',' s.toList).map jsTrim, tokenPages p N = []) →
        parsePageRange s N = []) := by
  constructor
  · intro h
    unfold parsePageRange
    rw [if_pos h]
  · intro h hall
    unfold parsePageRange
    rw [if_neg h]
    unfold collectedPages
    rw [foldl_empty_tokens N _ [] hall]
    rfl

/-- C4 amended witness: `"0,99"` with 5 pages has only invalid (out-of-bound)
tokens and yields `[]`. -/
theorem C4_amended_witness : parsePageRange "0,99" 5 = [] :=
  (C4_amended "0,99" 5 (by decide)).2 (by decide) (by decide)

/-! ## Grid page grouping (PDFToImageProcessor, grid layout mode)

The loop `for (let i = startIndex; i < pagesToConvert.length; i += pagesPerImage)`
collects consecutive slices of `pagesPerImage` pages. It is embedded for a
chunk size `k ≥ 1` (with `k = 0` the JS loop would never advance and hang,
which no caller can reach through the layout presets). -/

/-- Consecutive chunks of `k` elements, in order; the last chunk may be
shorter. Mirrors the grouping loop of the PDF-to-image processor. -/
def chunkPages {α : Type} (k : Nat) : List α → List (List α)
  | [] => []
  | p :: rest => (p :: rest.take (k - 1)) :: chunkPages k (rest.drop (k - 1))
termination_by l => l.length
decreasing_by simp only [List.length_cons, List.length_drop]; omega

/-- The page groups built by the PDF-to-image processor's grid layout mode:
when `skipFirst` is set and there are pages, the first page forms its own
singleton group (the cover) and the remaining pages are chunked; otherwise
all pages are chunked into groups of `k = columns * rows`. -/
def pageGroups {α : Type} (pagesToConvert : List α) (k : Nat) (skipFirst : Bool) :
    List (List α) :=
  match skipFirst, pagesToConvert with
  | true, p :: rest => [p] :: chunkPages k rest
  | true, [] => []
  | false, l => chunkPages k l

theorem chunkPages_flatten {α : Type} (k : Nat) (hk : 1 ≤ k) (l : List α) :
    (chunkPages k l).flatten = l := by
  have main : ∀ (n : Nat) (l : List α), l.length ≤ n → (chunkPages k l).flatten = l := by
    intro n
    induction n with
    | zero =>
      intro l hl
      cases l with
      | nil => rw [chunkPages]; rfl
      | cons p rest => simp at hl
    | succ n ih =>
      intro l hl
      cases l with
      | nil => rw [chunkPages]; rfl
      | cons p rest =>
        rw [chunkPages, List.flatten_cons,
          ih (rest.drop (k - 1)) (by simp only [List.length_cons] at hl; simp [List.length_drop]; omega)]
        simp [List.cons_append, List.take_append_drop]
  exact main l.length l le_rfl

theorem chunkPages_length_le {α : Type} (k : Nat) (hk : 1 ≤ k) (l : List α) :
    ∀ g ∈ chunkPages k l, g.length ≤ k := by
  have main : ∀ (n : Nat) (l : List α), l.length ≤ n → ∀ g ∈ chunkPages k l, g.length ≤ k := by
    intro n
    induction n with
    | zero =>
      intro l hl
      cases l with
      | nil => rw [chunkPages]; intro g hg; simp at hg
      | cons p rest => simp at hl
    | succ n ih =>
      intro l hl
      cases l with
      | nil => rw [chunkPages]; intro g hg; simp at hg
      | cons p rest =>
        rw [chunkPages]
        intro g hg
        rcases List.mem_cons.mp hg with h | h
        · subst h
          simp only [List.length_cons, List.length_take]
          omega
        · refine ih (rest.drop (k - 1)) ?_ g h
          simp only [List.length_cons] at hl
          simp [List.length_drop]
          omega
  exact main l.length l le_rfl

/-! ### Claim C5 -/

/-- C5: with `columns = 2, rows = 2` (`k = 4`), `skipFirstPage = true` and 5
selected pages the groups are `[[1],[2,3,4,5]]`; with `skipFirstPage = false`
they are `[[1,2,3,4],[5]]`; in general, for chunk size `k ≥ 1`, grouping
preserves all pages in order (so the final partial batch is kept), every
batch has at most `k` pages, and setting `skipFirstPage` forces the first
batch to the singleton cover page with the rest grouped normally. -/
theorem C5_pageGroups :
    pageGroups [1, 2, 3, 4, 5] 4 true = [[1], [2, 3, 4, 5]]
    ∧ pageGroups [1, 2, 3, 4, 5] 4 false = [[1, 2, 3, 4], [5]]
    ∧ ∀ (k : Nat), 1 ≤ k →
        (∀ (ps : List Nat), (pageGroups ps k false).flatten = ps
          ∧ ∀ g ∈ pageGroups ps k false, g.length ≤ k)
        ∧ ∀ (p : Nat) (rest : List Nat),
            pageGroups (p :: rest) k true = [p] :: pageGroups rest k false := by
  refine ⟨?_, ?_, fun k hk => ⟨fun ps => ⟨?_, ?_⟩, fun p rest => rfl⟩⟩
  · simp [pageGroups, chunkPages]
  · simp [pageGroups, chunkPages]
  · exact chunkPages_flatten k hk ps
  · exact chunkPages_length_le k hk ps

/-- C5 witness: the general grouping clause instantiated at `k = 4` and the
page list `[1, 2, 3]`. -/
theorem C5_pageGroups_witness : (pageGroups [1, 2, 3] 4 false).flatten = [1, 2, 3] :=
  ((C5_pageGroups.2.2 4 (by decide)).1 [1, 2, 3]).1

/-! ## getPageIndices (watermark processor) -/

/-- The `pages` option of the watermark processor:
`number[] | 'all' | 'odd' | 'even'`. -/
inductive PagesSel : Type
  | arr (l : List Int)
  | all
  | odd
  | even

/-- Watermark processor `getPageIndices`: an explicit array of 1-based page
numbers is shifted to 0-based and filtered to the document bounds; `'odd'`
keeps the 0-based indices `i` with `i % 2 === 0` (odd 1-based numbers),
`'even'` those with `i % 2 === 1`; `'all'` (the switch default) keeps every
index. -/
def getPageIndices (pages : PagesSel) (totalPages : Nat) : List Int :=
  match pages with
  | .arr l => (l.map (fun p => p - 1)).filter (fun p => decide (0 ≤ p ∧ p < (totalPages : Int)))
  | .odd => ((List.range totalPages).map (fun (i : Nat) => (i : Int))).filter
      (fun i => decide (i % 2 = 0))
  | .even => ((List.range totalPages).map (fun (i : Nat) => (i : Int))).filter
      (fun i => decide (i % 2 = 1))
  | .all => (List.range totalPages).map (fun (i : Nat) => (i : Int))

/-! ### Claim C10 -/

/-- C10: `getPageIndices` interprets its inputs as 1-based page numbers: an
explicit array entry `p` is applied (as 0-based index `p - 1`) iff
`1 ≤ p ≤ totalPages`, out-of-range entries dropped and input order
preserved; `'odd'` selects exactly the in-range 0-based indices whose
1-based number is odd; `'even'` those whose 1-based number is even; `'all'`
selects every page. -/
theorem C10_getPageIndices :
    (∀ (l : List Int) (N : Nat),
      getPageIndices (.arr l) N
        = (l.filter (fun p => decide (1 ≤ p ∧ p ≤ (N : Int)))).map (fun p => p - 1))
    ∧ (∀ (N : Nat) (i : Int),
        i ∈ getPageIndices .odd N ↔ 0 ≤ i ∧ i < (N : Int) ∧ (i + 1) % 2 = 1)
    ∧ (∀ (N : Nat) (i : Int),
        i ∈ getPageIndices .even N ↔ 0 ≤ i ∧ i < (N : Int) ∧ (i + 1) % 2 = 0)
    ∧ ∀ (N : Nat), getPageIndices .all N = (List.range N).map (fun (i : Nat) => (i : Int)) := by
  refine ⟨fun l N => ?_, fun N i => ?_, fun N i => ?_, fun N => rfl⟩
  · show (l.map (fun p => p - 1)).filter (fun p => decide (0 ≤ p ∧ p < (N : Int)))
        = (l.filter (fun p => decide (1 ≤ p ∧ p ≤ (N : Int)))).map (fun p => p - 1)
    rw [List.filter_map]
    congr 1
    apply List.filter_congr
    intro p _
    simp only [Function.comp_apply, decide_eq_decide]
    omega
  · show i ∈ ((List.range N).map (fun (j : Nat) => (j : Int))).filter
        (fun j => decide (j % 2 = 0)) ↔ _
    simp only [List.mem_filter, List.mem_map, List.mem_range, decide_eq_true_eq]
    constructor
    · rintro ⟨⟨n, hn, rfl⟩, hmod⟩
      refine ⟨by omega, by omega, by omega⟩
    · rintro ⟨h0, hN, hmod⟩
      exact ⟨⟨i.toNat, by omega, by omega⟩, by omega⟩
  · show i ∈ ((List.range N).map (fun (j : Nat) => (j : Int))).filter
        (fun j => decide (j % 2 = 1)) ↔ _
    simp only [List.mem_filter, List.mem_map, List.mem_range, decide_eq_true_eq]
    constructor
    · rintro ⟨⟨n, hn, rfl⟩, hmod⟩
      refine ⟨by omega, by omega, by omega⟩
    · rintro ⟨h0, hN, hmod⟩
      exact ⟨⟨i.toNat, by omega, by omega⟩, by omega⟩

/-! ## Processor model

The four processors share infrastructure from `BasePDFProcessor`
(`src/lib/pdf/processor.ts`, imported as `../processor`) and the error-code
enumeration (`@/types/pdf`). That file is not part of the provided sources,
so its helpers are modelled from the specification, as documented on each
definition; everything else below is translated from the four processor
sources themselves. -/

/-- The `PDFErrorCode` enumeration surfaced in `ProcessOutput.error.code`
(spec section 6). -/
inductive ErrorCode : Type
  | INVALID_OPTIONS
  | FILE_TYPE_INVALID
  | INVALID_PAGE_RANGE
  | PROCESSING_CANCELLED
  | PROCESSING_FAILED
  | WORKER_FAILED
  | PDF_ENCRYPTED
  deriving DecidableEq

/-- A browser `File` as the processors read it: its `name` and its MIME
`type`. -/
structure JsFile : Type where
  name : String
  mimeType : String
  deriving DecidableEq

/-- The `ProcessOutput` envelope, abstracting binary results to a payload of
type `α` (spec section 3: exactly one of `result`/`error` is populated). -/
structure Envelope (α : Type) : Type where
  success : Bool
  result : Option α
  errorCode : Option ErrorCode
  deriving DecidableEq

/-- Modelled from the spec: `BasePDFProcessor.createSuccessOutput`
(`src/lib/pdf/processor.ts`, not in the provided sources) wraps a result in
a success envelope with no error. -/
def okOut {α : Type} (a : α) : Envelope α :=
  { success := true, result := some a, errorCode := none }

/-- Modelled from the spec: `BasePDFProcessor.createErrorOutput`
(`src/lib/pdf/processor.ts`, not in the provided sources) wraps an error
code in a failure envelope with no result. -/
def errOut {α : Type} (c : ErrorCode) : Envelope α :=
  { success := false, result := none, errorCode := some c }

/-- The file-type test used verbatim by the PDF-to-DOCX and PDF-to-image
processors: `file.type.includes('pdf') || file.name.toLowerCase().endsWith('.pdf')`. -/
def isPdfFile (f : JsFile) : Bool :=
  listIncludes "pdf".toList f.mimeType.toList
    || listEndsWith ".pdf".toList (f.name.toList.map Char.toLower)

/-- Outcome of handing the input bytes to the PDF library
(`getDocument` / `PDFDocument.load`): a page count on success, or a thrown
error whose message does or does not mention encryption. -/
inductive ParseOutcome : Type
  | ok (numPages : Nat)
  | encrypted
  | corrupt
  deriving DecidableEq

/-- Environment of one `process()` call: the behaviour of the opaque
capability providers (PDF library parse outcome, per-page render success,
per-page scaled viewport dimensions) and the cooperative cancellation flag,
modelled as constant across the call (so the first cooperative check that
sees it set decides the run). -/
structure PdfEnv : Type where
  parse : ParseOutcome
  renderOk : Int → Bool
  dims : Int → ℚ × ℚ
  cancelled : Bool

/-- One argument to `updateProgress`: an explicit percentage, or the current
stored percentage (`this.progress`, as in pdf-to-docx.ts line 158). -/
inductive ProgReq : Type
  | val (q : ℚ)
  | cur
  deriving DecidableEq

/-- Modelled from the spec: `BasePDFProcessor.updateProgress`
(`src/lib/pdf/processor.ts`, not in the provided sources). The spec
(section 3) states the progress percent is "mutated monotonically-but-not-
strictly" across phases, so the updater never lowers the stored percent; it
stores the clamped value and reports it to the callback. `clampSeq c reqs`
is the sequence of percentages delivered to the progress callback for the
requests `reqs` starting from stored percent `c`. -/
def clampSeq (c : ℚ) : List ProgReq → List ℚ
  | [] => []
  | .val q :: rs => max c q :: clampSeq (max c q) rs
  | .cur :: rs => c :: clampSeq c rs

/-- Final stored percent after a request sequence. -/
def clampEnd (c : ℚ) : List ProgReq → ℚ
  | [] => c
  | .val q :: rs => clampEnd (max c q) rs
  | .cur :: rs => clampEnd c rs

/-- The percentages delivered to the caller's progress callback during one
`process()` call (the stored percent starts at 0: `reset()`). -/
def delivered (reqs : List ProgReq) : List ℚ :=
  clampSeq 0 reqs

theorem clampSeq_le (c : ℚ) (rs : List ProgReq) : ∀ x ∈ clampSeq c rs, c ≤ x := by
  induction rs generalizing c with
  | nil => simp [clampSeq]
  | cons r rt ih =>
    cases r with
    | val q =>
      intro x hx
      rcases List.mem_cons.mp hx with h | h
      · subst h; exact le_max_left c q
      · exact le_trans (le_max_left c q) (ih (max c q) x h)
    | cur =>
      intro x hx
      rcases List.mem_cons.mp hx with h | h
      · subst h; exact le_rfl
      · exact ih c x h

theorem clampSeq_chain (c : ℚ) (rs : List ProgReq) :
    List.Chain' (· ≤ ·) (clampSeq c rs) := by
  induction rs generalizing c with
  | nil => simp [clampSeq]
  | cons r rt ih =>
    cases r with
    | val q =>
      rw [clampSeq, List.chain'_cons']
      exact ⟨fun b hb => clampSeq_le _ _ b (List.mem_of_mem_head? hb), ih (max c q)⟩
    | cur =>
      rw [clampSeq, List.chain'_cons']
      exact ⟨fun b hb => clampSeq_le _ _ b (List.mem_of_mem_head? hb), ih c⟩

theorem clampSeq_bound {B c : ℚ} (hc : c ≤ B) {rs : List ProgReq}
    (hr : ∀ q, ProgReq.val q ∈ rs → q ≤ B) : ∀ x ∈ clampSeq c rs, x ≤ B := by
  induction rs generalizing c with
  | nil => simp [clampSeq]
  | cons r rt ih =>
    cases r with
    | val q =>
      intro x hx
      have hq : q ≤ B := hr q (List.mem_cons_self _ _)
      rcases List.mem_cons.mp hx with h | h
      · subst h; exact max_le hc hq
      · exact ih (max_le hc hq) (fun q' hq' => hr q' (List.mem_cons_of_mem _ hq')) x h
    | cur =>
      intro x hx
      rcases List.mem_cons.mp hx with h | h
      · subst h; exact hc
      · exact ih hc (fun q' hq' => hr q' (List.mem_cons_of_mem _ hq')) x h

theorem clampSeq_strict_bound {B c : ℚ} (hc : c < B) {rs : List ProgReq}
    (hr : ∀ q, ProgReq.val q ∈ rs → q < B) : ∀ x ∈ clampSeq c rs, x < B := by
  induction rs generalizing c with
  | nil => simp [clampSeq]
  | cons r rt ih =>
    cases r with
    | val q =>
      intro x hx
      have hq : q < B := hr q (List.mem_cons_self _ _)
      rcases List.mem_cons.mp hx with h | h
      · subst h; exact max_lt hc hq
      · exact ih (max_lt hc hq) (fun q' hq' => hr q' (List.mem_cons_of_mem _ hq')) x h
    | cur =>
      intro x hx
      rcases List.mem_cons.mp hx with h | h
      · subst h; exact hc
      · exact ih hc (fun q' hq' => hr q' (List.mem_cons_of_mem _ hq')) x h

theorem clampEnd_bound {B c : ℚ} (hc : c ≤ B) {rs : List ProgReq}
    (hr : ∀ q, ProgReq.val q ∈ rs → q ≤ B) : clampEnd c rs ≤ B := by
  induction rs generalizing c with
  | nil => exact hc
  | cons r rt ih =>
    cases r with
    | val q =>
      exact ih (max_le hc (hr q (List.mem_cons_self _ _)))
        (fun q' hq' => hr q' (List.mem_cons_of_mem _ hq'))
    | cur => exact ih hc (fun q' hq' => hr q' (List.mem_cons_of_mem _ hq'))

theorem clampSeq_append (c : ℚ) (rs rs' : List ProgReq) :
    clampSeq c (rs ++ rs') = clampSeq c rs ++ clampSeq (clampEnd c rs) rs' := by
  induction rs generalizing c with
  | nil => rfl
  | cons r rt ih =>
    cases r with
    | val q =>
      simp only [List.cons_append, clampSeq, clampEnd]
      exact congrArg (List.cons _) (ih _)
    | cur =>
      simp only [List.cons_append, clampSeq, clampEnd]
      exact congrArg (List.cons _) (ih _)

/-! ## RasterizePDFProcessor.process (rasterize.ts lines 122-393)

The run function returns the result envelope together with the sequence of
`updateProgress` requests issued along the taken path, in source order. -/

/-- Output payload of the rasterize processor: one image blob per rendered
page (PNG/JPEG/WebP mode, single file or zip), or an assembled output PDF
whose entries carry each page's own millimetre dimensions. -/
inductive RasterResult : Type
  | images (pages : List Int)
  | pdfDoc (pages : List (Int × ℚ × ℚ))
  deriving DecidableEq

/-- The rasterize output format option. -/
inductive RasterizeFormat : Type
  | png
  | jpeg
  | webp
  | pdf
  deriving DecidableEq

/-- The rasterize options after merging over the defaults. -/
structure RasterizeOptions : Type where
  dpi : ℚ
  format : RasterizeFormat
  quality : ℚ
  pageRange : String
  backgroundColor : String

/-- The default rasterize options (rasterize.ts lines 41-47). -/
def defaultRasterizeOptions : RasterizeOptions :=
  { dpi := 150, format := .png, quality := 92 / 100, pageRange := "", backgroundColor := "white" }

/-- A page entry of the assembled output PDF: the page number and its
millimetre dimensions `(width, height) / dpi * 25.4` computed from the
scaled viewport (rasterize.ts lines 232-233). -/
def pageMm (env : PdfEnv) (dpi : ℚ) (p : Int) : Int × ℚ × ℚ :=
  ((p : Int), (env.dims p).1 / dpi * (254 / 10), (env.dims p).2 / dpi * (254 / 10))

/-- One iteration of the PDF-output loop (rasterize.ts lines 196-254), on
the state `pdfOutput : Option (page list)`. A failed render is caught and
the page skipped; at loop index 0 a fresh output document is created from
that page; at a later index, `pdfOutput!.addPage` on a still-null output
throws inside the same `try` and is also caught, skipping the page. -/
def rasterPdfStep (env : PdfEnv) (dpi : ℚ) (i : Nat) (st : Option (List (Int × ℚ × ℚ)))
    (p : Int) : Option (List (Int × ℚ × ℚ)) :=
  if env.renderOk p then
    if i = 0 then some [pageMm env dpi p]
    else
      match st with
      | none => none
      | some ps => some (ps ++ [pageMm env dpi p])
  else st

/-- The PDF-output loop `for (let i = 0; i < pagesToRender.length; i++)`. -/
def rasterPdfLoop (env : PdfEnv) (dpi : ℚ) :
    Nat → Option (List (Int × ℚ × ℚ)) → List Int → Option (List (Int × ℚ × ℚ))
  | _, st, [] => st
  | i, st, p :: rest => rasterPdfLoop env dpi (i + 1) (rasterPdfStep env dpi i st p) rest

/-- Per-page progress requests of both rasterize render loops:
`15 + ((i / pagesToRender.length) * 75)` for `i = 0 .. n-1` (rasterize.ts
lines 205 and 292; the loops never return early, a failed page only being
skipped, so the requests do not depend on render outcomes). -/
def rasterLoopReqs (n : Nat) : List ProgReq :=
  (List.range n).map (fun (i : Nat) => .val (15 + ((i : ℚ) / (n : ℚ)) * 75))

/-- RasterizePDFProcessor.process: file-count validation, PDF parse
(`PDF_ENCRYPTED` for parse errors mentioning encryption, `PROCESSING_FAILED`
otherwise), cooperative cancellation, page-range resolution (empty
selection rejected with `INVALID_OPTIONS`), then the render loop of the
selected output mode. There is no file-type validation in this processor. -/
def rasterizeRun (env : PdfEnv) (files : List JsFile) (opts : RasterizeOptions) :
    Envelope RasterResult × List ProgReq :=
  match files with
  | [_] =>
    match env.parse with
    | .encrypted => (errOut .PDF_ENCRYPTED, [.val 5, .val 10])
    | .corrupt => (errOut .PROCESSING_FAILED, [.val 5, .val 10])
    | .ok totalPages =>
      if env.cancelled then (errOut .PROCESSING_CANCELLED, [.val 5, .val 10])
      else
        let pagesToRender := parsePageRange opts.pageRange totalPages
        if pagesToRender = [] then (errOut .INVALID_OPTIONS, [.val 5, .val 10, .val 10])
        else if opts.format = .pdf then
          match rasterPdfLoop env opts.dpi 0 none pagesToRender with
          | none => (errOut .PROCESSING_FAILED,
              [.val 5, .val 10, .val 10, .val 15] ++ rasterLoopReqs pagesToRender.length)
          | some ps => (okOut (.pdfDoc ps),
              [.val 5, .val 10, .val 10, .val 15] ++ rasterLoopReqs pagesToRender.length
                ++ [.val 92, .val 100])
        else
          let images := pagesToRender.filter env.renderOk
          if images = [] then (errOut .PROCESSING_FAILED,
              [.val 5, .val 10, .val 10, .val 15] ++ rasterLoopReqs pagesToRender.length)
          else (okOut (.images images),
              [.val 5, .val 10, .val 10, .val 15] ++ rasterLoopReqs pagesToRender.length
                ++ [.val 92, .val 100])
  | _ => (errOut .INVALID_OPTIONS, [])

/-! ## PDFToImageProcessor.process (PDF-to-image source, lines 115-338) -/

/-- The PDF-to-image options after merging over the defaults: the explicit
page list (`[]` meaning all pages) and the grid layout. -/
structure ImageOptions : Type where
  pages : List Int
  columns : Nat
  rows : Nat
  skipFirstPage : Bool

/-- A group renders successfully iff every page in it renders: both
`renderPageToImage` and `renderGridPagesToImage` throw as soon as any
`getPage`/`render` of theirs fails. -/
def groupOk (env : PdfEnv) (g : List Int) : Bool :=
  g.all env.renderOk

/-- The render loop of PDFToImageProcessor over its page groups (singleton
groups in single-page mode): each iteration first reports
`15 + i * per`, then attempts the group; the first failing group aborts
the whole call (the processor returns `PROCESSING_FAILED` from inside the
loop — no failure isolation). -/
def imgGroupsLoop (env : PdfEnv) (per : ℚ) :
    Nat → List (List Int) → Option Unit × List ProgReq
  | _, [] => (some (), [])
  | i, g :: rest =>
    if groupOk env g then
      let r := imgGroupsLoop env per (i + 1) rest
      (r.1, .val (15 + (i : ℚ) * per) :: r.2)
    else (none, [.val (15 + (i : ℚ) * per)])

/-- The resolved page selection of PDFToImageProcessor (source lines
168-170): an explicit non-empty page list is filtered to
`p >= 1 && p <= totalPages`; an empty list means all pages. -/
def resolvePages (opts : ImageOptions) (totalPages : Nat) : List Int :=
  if opts.pages ≠ [] then
    opts.pages.filter (fun p => decide (1 ≤ p) && decide (p ≤ (totalPages : Int)))
  else fullPageList totalPages

/-- PDFToImageProcessor.process: file count, file type (`FILE_TYPE_INVALID`),
PDF parse (any parse failure is `PROCESSING_FAILED`), page selection (an
empty resolved selection is rejected with `INVALID_PAGE_RANGE`), then the
single-page or grid render loop. On success the payload is the ordered
list of rendered groups (one output image per group). -/
def pdfToImageRun (env : PdfEnv) (files : List JsFile) (opts : ImageOptions) :
    Envelope (List (List Int)) × List ProgReq :=
  match files with
  | [f] =>
    if isPdfFile f then
      if env.cancelled then (errOut .PROCESSING_CANCELLED, [.val 5])
      else
        match env.parse with
        | .ok totalPages =>
          let pagesToConvert := resolvePages opts totalPages
          if pagesToConvert = [] then (errOut .INVALID_PAGE_RANGE, [.val 5, .val 10])
          else if opts.columns * opts.rows = 1 then
            let groups := pagesToConvert.map (fun p => [p])
            let r := imgGroupsLoop env (80 / (pagesToConvert.length : ℚ)) 0 groups
            match r.1 with
            | none => (errOut .PROCESSING_FAILED, [.val 5, .val 10, .val 15] ++ r.2)
            | some _ => (okOut groups,
                [.val 5, .val 10, .val 15] ++ r.2 ++ [.val 95, .val 100])
          else
            let groups := pageGroups pagesToConvert (opts.columns * opts.rows) opts.skipFirstPage
            let r := imgGroupsLoop env (80 / (groups.length : ℚ)) 0 groups
            match r.1 with
            | none => (errOut .PROCESSING_FAILED, [.val 5, .val 10, .val 15] ++ r.2)
            | some _ => (okOut groups,
                [.val 5, .val 10, .val 15] ++ r.2 ++ [.val 95, .val 100])
        | _ => (errOut .PROCESSING_FAILED, [.val 5, .val 10])
    else (errOut .FILE_TYPE_INVALID, [])
  | _ => (errOut .INVALID_OPTIONS, [])

/-! ## WatermarkProcessor.process (watermark source, lines 25-150) -/

/-- Per-page progress requests of the watermark loop:
`30 + (60 * (i + 1) / pagesToProcess.length)` reported after each page
(watermark source line 137). -/
def wmLoopReqs (n : Nat) : List ProgReq :=
  (List.range n).map (fun (i : Nat) => .val (30 + 60 * ((i : ℚ) + 1) / (n : ℚ)))

/-- WatermarkProcessor.process: file count, pdf-lib load (a thrown load is
caught as `PROCESSING_FAILED`; there is no file-type validation), page
selection via `getPageIndices`, then the watermark loop. The drawing calls
of the loop are modelled as always succeeding (pdf-lib draw operations on a
loaded document); the cooperative cancellation check sits at the top of
each iteration, so with a constant flag it fires iff the selection is
non-empty. On success the payload is the list of processed page indices. -/
def watermarkRun (env : PdfEnv) (files : List JsFile) (sel : PagesSel) :
    Envelope (List Int) × List ProgReq :=
  match files with
  | [_] =>
    match env.parse with
    | .ok totalPages =>
      let pagesToProcess := getPageIndices sel totalPages
      if env.cancelled ∧ pagesToProcess ≠ [] then
        (errOut .PROCESSING_CANCELLED, [.val 10, .val 20, .val 30])
      else
        (okOut pagesToProcess,
          [.val 10, .val 20, .val 30] ++ wmLoopReqs pagesToProcess.length
            ++ [.val 95, .val 100])
    | _ => (errOut .PROCESSING_FAILED, [.val 10, .val 20])
  | _ => (errOut .INVALID_OPTIONS, [])

/-! ## PDFToDocxProcessor.process (pdf-to-docx.ts lines 93-231) with the
worker script (pdf-to-docx.worker.js) -/

/-- Outcome of the worker initialization handshake: success or an error
reply / connection error, in both cases after `statusCount` untagged
`status` messages, each forwarded by the init handler at the fixed low
percentage 0 (pdf-to-docx.ts line 48). -/
inductive InitOutcome : Type
  | initOk (statusCount : Nat)
  | initFail (statusCount : Nat)
  deriving DecidableEq

/-- Outcome of the conversion round-trip. The worker script posts `progress`
messages with percents 5 and 10, runs the conversion, then posts 85 and 90
and the terminal `convert-complete`; an application-level failure raises in
`pdf_convert`, so the worker posts 5 and 10 and then an `error` message; a
transport-level failure fires the channel's `error` event (modelled at the
same point of the script). -/
inductive ConvertOutcome : Type
  | completeOk
  | appError
  | transportError
  deriving DecidableEq

/-- Environment of one PDF-to-DOCX call. -/
structure DocxEnv : Type where
  init : InitOutcome
  convert : ConvertOutcome
  cancelled : Bool

/-- Result of one PDF-to-DOCX call: the envelope, the progress requests,
and whether `this.worker` is still set (the execution context survives into
the next call). -/
structure DocxResult : Type where
  out : Envelope Unit
  reqs : List ProgReq
  workerAlive : Bool

/-- The init-status progress requests: each `status` message during the
handshake is forwarded as `updateProgress(0, message)`. -/
def statusReqs (k : Nat) : List ProgReq :=
  (List.range k).map (fun _ => .val 0)

/-- The conversion phase of PDFToDocxProcessor.process, entered with the
worker alive and the progress requests `pre` already issued: the
cancellation check (line 136), `updateProgress(30)`, the worker round-trip
(its `progress` posts forwarded verbatim), and on success the final
`updateProgress(100)`. Both an application-level `error` reply and a
transport-level channel error reject the round-trip promise, land in the
outer catch (line 220), and run `terminateWorker()` — the worker does not
survive either failure. -/
def docxConvertPhase (env : DocxEnv) (pre : List ProgReq) : DocxResult :=
  if env.cancelled then
    { out := errOut .PROCESSING_CANCELLED, reqs := pre, workerAlive := true }
  else
    match env.convert with
    | .completeOk =>
        { out := okOut (),
          reqs := pre ++ [.val 30, .val 5, .val 10, .val 85, .val 90, .val 100],
          workerAlive := true }
    | .appError =>
        { out := errOut .PROCESSING_FAILED,
          reqs := pre ++ [.val 30, .val 5, .val 10],
          workerAlive := false }
    | .transportError =>
        { out := errOut .PROCESSING_FAILED,
          reqs := pre ++ [.val 30, .val 5, .val 10],
          workerAlive := false }

/-- PDFToDocxProcessor.process: file count, file type (`FILE_TYPE_INVALID`),
`updateProgress(10)`, then `initWorker()` — which returns immediately when
`this.worker` is already set (`alive0`), and otherwise runs the handshake;
an init failure returns `WORKER_FAILED` while leaving the freshly created
`Worker` object assigned — then the conversion phase. -/
def docxRun (env : DocxEnv) (files : List JsFile) (alive0 : Bool) : DocxResult :=
  match files with
  | [f] =>
    if isPdfFile f then
      if alive0 then docxConvertPhase env [.val 10]
      else
        match env.init with
        | .initOk k => docxConvertPhase env ([.val 10] ++ statusReqs k)
        | .initFail k =>
            { out := errOut .WORKER_FAILED,
              reqs := [.val 10] ++ statusReqs k,
              workerAlive := true }
    else { out := errOut .FILE_TYPE_INVALID, reqs := [], workerAlive := alive0 }
  | _ => { out := errOut .INVALID_OPTIONS, reqs := [], workerAlive := alive0 }

/-! ## Loop lemmas -/

/-- Concrete input fixtures used by the counterexamples and witnesses. -/
def samplePdfFile : JsFile :=
  { name := "doc.pdf", mimeType := "application/pdf" }

def sampleTxtFile : JsFile :=
  { name := "notes.txt", mimeType := "text/plain" }

theorem rasterPdfLoop_none (env : PdfEnv) (dpi : ℚ) :
    ∀ (rest : List Int) (i : Nat), 1 ≤ i → rasterPdfLoop env dpi i none rest = none := by
  intro rest
  induction rest with
  | nil => intro i _; rfl
  | cons p t ih =>
    intro i hi
    rw [rasterPdfLoop]
    have hstep : rasterPdfStep env dpi i none p = none := by
      unfold rasterPdfStep
      split
      · rw [if_neg (by omega)]
      · rfl
    rw [hstep]
    exact ih (i + 1) (by omega)

theorem rasterPdfLoop_some (env : PdfEnv) (dpi : ℚ) :
    ∀ (rest : List Int) (i : Nat) (l : List (Int × ℚ × ℚ)), 1 ≤ i →
      rasterPdfLoop env dpi i (some l) rest
        = some (l ++ (rest.filter env.renderOk).map (pageMm env dpi)) := by
  intro rest
  induction rest with
  | nil => intro i l _; simp [rasterPdfLoop]
  | cons p t ih =>
    intro i l hi
    rw [rasterPdfLoop]
    unfold rasterPdfStep
    rw [if_neg (by omega : ¬ i = 0)]
    by_cases hr : env.renderOk p
    · rw [if_pos hr, ih (i + 1) _ (by omega), List.filter_cons_of_pos hr]
      simp
    · rw [if_neg hr, ih (i + 1) _ (by omega), List.filter_cons_of_neg hr]

/-- The PDF-output loop started at index 0 on a non-empty selection:
when the first selected page renders, the output document holds exactly the
successfully rendered pages, each with its own dimensions; when the first
selected page fails to render, the output document is never created and
every later page's `addPage` throws into the per-page catch, so the loop
ends with no output at all. -/
theorem rasterPdfLoop_spec (env : PdfEnv) (dpi : ℚ) (p : Int) (rest : List Int) :
    (env.renderOk p = true →
      rasterPdfLoop env dpi 0 none (p :: rest)
        = some (((p :: rest).filter env.renderOk).map (pageMm env dpi)))
    ∧ (env.renderOk p = false →
      rasterPdfLoop env dpi 0 none (p :: rest) = none) := by
  constructor
  · intro hr
    rw [rasterPdfLoop]
    unfold rasterPdfStep
    rw [if_pos hr, if_pos rfl, rasterPdfLoop_some env dpi rest 1 _ le_rfl,
      List.filter_cons_of_pos hr]
    simp [pageMm]
  · intro hr
    rw [rasterPdfLoop]
    unfold rasterPdfStep
    rw [if_neg (by simp [hr]), rasterPdfLoop_none env dpi rest 1 le_rfl]

theorem imgGroupsLoop_ok (env : PdfEnv) (per : ℚ) :
    ∀ (groups : List (List Int)) (i : Nat), (∀ g ∈ groups, groupOk env g = true) →
      (imgGroupsLoop env per i groups).1 = some () := by
  intro groups
  induction groups with
  | nil => intro i _; rfl
  | cons g rest ih =>
    intro i h
    rw [imgGroupsLoop]
    rw [if_pos (h g (List.mem_cons_self _ _))]
    exact ih (i + 1) (fun g' hg' => h g' (List.mem_cons_of_mem _ hg'))

theorem imgGroupsLoop_fail (env : PdfEnv) (per : ℚ) :
    ∀ (groups : List (List Int)) (i : Nat), (∃ g ∈ groups, groupOk env g = false) →
      (imgGroupsLoop env per i groups).1 = none := by
  intro groups
  induction groups with
  | nil => intro i h; simp at h
  | cons g rest ih =>
    intro i h
    rw [imgGroupsLoop]
    by_cases hg : groupOk env g
    · rw [if_pos hg]
      refine ih (i + 1) ?_
      rcases h with ⟨g', hg', hfail⟩
      rcases List.mem_cons.mp hg' with rfl | hmem
      · rw [hg] at hfail; cases hfail
      · exact ⟨g', hmem, hfail⟩
    · rw [if_neg hg]

/-! ### Claim C7 -/

/-- C7 counterexample: the rasterize processor performs no file-type check —
given a single `text/plain` file named `notes.txt` (neither a PDF MIME type
nor a `.pdf` extension) it proceeds to document parsing and resolves with
`PROCESSING_FAILED` when the parse throws, not with `FILE_TYPE_INVALID`. -/
theorem C7_counterexample :
    isPdfFile sampleTxtFile = false
    ∧ (rasterizeRun ⟨.corrupt, fun _ => true, fun _ => (1, 1), false⟩
        [sampleTxtFile] defaultRasterizeOptions).1
      = errOut .PROCESSING_FAILED
    ∧ ErrorCode.PROCESSING_FAILED ≠ ErrorCode.FILE_TYPE_INVALID := by
  refine ⟨by decide, by decide, by decide⟩

/-- C7 amended: only the PDF-to-DOCX and PDF-to-image processors validate
the file type, failing with `FILE_TYPE_INVALID` on a non-PDF single file
before any document work (the result does not depend on the document
environment at all); the rasterize and watermark processors never produce
`FILE_TYPE_INVALID` on any input — a non-PDF file flows into document
parsing and surfaces as a parse failure instead. -/
theorem C7_amended :
    (∀ (env : DocxEnv) (f : JsFile) (alive0 : Bool), isPdfFile f = false →
      (docxRun env [f] alive0).out = errOut .FILE_TYPE_INVALID)
    ∧ (∀ (env : PdfEnv) (f : JsFile) (opts : ImageOptions), isPdfFile f = false →
      (pdfToImageRun env [f] opts).1 = errOut .FILE_TYPE_INVALID)
    ∧ (∀ (env : PdfEnv) (files : List JsFile) (opts : RasterizeOptions),
      (rasterizeRun env files opts).1.errorCode ≠ some .FILE_TYPE_INVALID)
    ∧ (∀ (env : PdfEnv) (files : List JsFile) (sel : PagesSel),
      (watermarkRun env files sel).1.errorCode ≠ some .FILE_TYPE_INVALID) := by
  refine ⟨fun env f alive0 h => ?_, fun env f opts h => ?_,
    fun env files opts => ?_, fun env files sel => ?_⟩
  · simp [docxRun, h]
  · simp [pdfToImageRun, h]
  · obtain ⟨parse, renderOk, dims, cancelled⟩ := env
    cases files with
    | nil => simp [rasterizeRun, errOut]
    | cons f rest =>
      cases rest with
      | cons g t => simp [rasterizeRun, errOut]
      | nil =>
        cases parse with
        | encrypted => simp [rasterizeRun, errOut]
        | corrupt => simp [rasterizeRun, errOut]
        | ok N =>
          cases cancelled with
          | true => simp [rasterizeRun, errOut]
          | false =>
            by_cases hpr : parsePageRange opts.pageRange N = []
            · simp [rasterizeRun, hpr, errOut]
            · by_cases hfmt : opts.format = .pdf
              · cases hl : rasterPdfLoop ⟨.ok N, renderOk, dims, false⟩ opts.dpi 0 none
                    (parsePageRange opts.pageRange N) with
                | none => simp [rasterizeRun, hpr, hfmt, hl, errOut]
                | some ps => simp [rasterizeRun, hpr, hfmt, hl, errOut, okOut]
              · by_cases him : (parsePageRange opts.pageRange N).filter renderOk = []
                · simp [rasterizeRun, hpr, hfmt, him, errOut]
                · simp [rasterizeRun, hpr, hfmt, him, errOut, okOut]
  · obtain ⟨parse, renderOk, dims, cancelled⟩ := env
    cases files with
    | nil => simp [watermarkRun, errOut]
    | cons f rest =>
      cases rest with
      | cons g t => simp [watermarkRun, errOut]
      | nil =>
        cases parse with
        | encrypted => simp [watermarkRun, errOut]
        | corrupt => simp [watermarkRun, errOut]
        | ok N =>
          cases cancelled with
          | false => simp [watermarkRun, errOut, okOut]
          | true =>
            by_cases hsel : getPageIndices sel N = []
            · simp [watermarkRun, hsel, errOut, okOut]
            · simp [watermarkRun, hsel, errOut, okOut]

/-- C7 amended witness: the PDF-to-DOCX processor rejects the text file with
`FILE_TYPE_INVALID` (for an arbitrary concrete environment). -/
theorem C7_amended_witness :
    (docxRun ⟨.initOk 0, .completeOk, false⟩ [sampleTxtFile] false).out
      = errOut .FILE_TYPE_INVALID :=
  C7_amended.1 ⟨.initOk 0, .completeOk, false⟩ sampleTxtFile false (by decide)

/-! ### Claim C8 -/

/-- C8 counterexample: the rasterize processor surfaces an empty resolved
page selection (range `"99"` against a 5-page document) as
`INVALID_OPTIONS`, not `INVALID_PAGE_RANGE`. -/
theorem C8_counterexample :
    (rasterizeRun ⟨.ok 5, fun _ => true, fun _ => (1, 1), false⟩ [samplePdfFile]
        { defaultRasterizeOptions with pageRange := "99" }).1
      = errOut .INVALID_OPTIONS
    ∧ ErrorCode.INVALID_OPTIONS ≠ ErrorCode.INVALID_PAGE_RANGE := by
  refine ⟨by decide, by decide⟩

/-- C8 amended: on an empty resolved page selection against a non-empty
document, the PDF-to-image processor returns `INVALID_PAGE_RANGE`, the
rasterize processor returns `INVALID_OPTIONS`, and the watermark processor
treats the empty selection as a successful no-op run. -/
theorem C8_amended :
    (∀ (env : PdfEnv) (f : JsFile) (opts : ImageOptions) (N : Nat),
      env.parse = .ok N → env.cancelled = false → isPdfFile f = true →
      resolvePages opts N = [] →
      (pdfToImageRun env [f] opts).1 = errOut .INVALID_PAGE_RANGE)
    ∧ (∀ (env : PdfEnv) (f : JsFile) (opts : RasterizeOptions) (N : Nat),
      env.parse = .ok N → env.cancelled = false →
      parsePageRange opts.pageRange N = [] →
      (rasterizeRun env [f] opts).1 = errOut .INVALID_OPTIONS)
    ∧ (∀ (env : PdfEnv) (f : JsFile) (sel : PagesSel) (N : Nat),
      env.parse = .ok N →
      getPageIndices sel N = [] →
      (watermarkRun env [f] sel).1.success = true) := by
  refine ⟨fun env f opts N hp hc hf hres => ?_,
    fun env f opts N hp hc hsel => ?_, fun env f sel N hp hsel => ?_⟩
  · simp [pdfToImageRun, hp, hc, hf, hres]
  · simp [rasterizeRun, hp, hc, hsel]
  · simp [watermarkRun, hp, hsel, okOut]

/-- C8 amended witness: PDF-to-image with the out-of-bounds explicit page
list `[99]` against a 5-page document resolves with `INVALID_PAGE_RANGE`. -/
theorem C8_amended_witness :
    (pdfToImageRun ⟨.ok 5, fun _ => true, fun _ => (1, 1), false⟩ [samplePdfFile]
        ⟨[99], 1, 1, false⟩).1 = errOut .INVALID_PAGE_RANGE :=
  C8_amended.1 ⟨.ok 5, fun _ => true, fun _ => (1, 1), false⟩ samplePdfFile
    ⟨[99], 1, 1, false⟩ 5 rfl rfl (by decide) (by decide)

/-! ### Claim C6 -/

/-- C6 counterexample: after an application-level `error` reply to a
conversion request, the worker is torn down (`terminateWorker()` in the
outer catch), not kept alive and reusable as the claim states. -/
theorem C6_counterexample :
    (docxRun ⟨.initOk 0, .appError, false⟩ [samplePdfFile] false).workerAlive = false
    ∧ (docxRun ⟨.initOk 0, .appError, false⟩ [samplePdfFile] false).out
        = errOut .PROCESSING_FAILED := by
  refine ⟨by decide, by decide⟩

/-- C6 amended: any failure of the conversion round-trip — an
application-level `error` reply just as much as a transport-level channel
failure — lands in the outer catch of `process()`, which terminates the
worker; the execution context survives only a successful conversion. -/
theorem C6_amended (env : DocxEnv) (f : JsFile) (alive0 : Bool)
    (hf : isPdfFile f = true) (hc : env.cancelled = false)
    (havail : alive0 = true ∨ ∃ k, env.init = .initOk k) :
    (env.convert = .appError →
      (docxRun env [f] alive0).out = errOut .PROCESSING_FAILED
      ∧ (docxRun env [f] alive0).workerAlive = false)
    ∧ (env.convert = .transportError →
      (docxRun env [f] alive0).out = errOut .PROCESSING_FAILED
      ∧ (docxRun env [f] alive0).workerAlive = false)
    ∧ (env.convert = .completeOk →
      (docxRun env [f] alive0).out.success = true
      ∧ (docxRun env [f] alive0).workerAlive = true) := by
  have hbody : ∀ (pre : List ProgReq),
      (env.convert = .appError →
        (docxConvertPhase env pre).out = errOut .PROCESSING_FAILED
        ∧ (docxConvertPhase env pre).workerAlive = false)
      ∧ (env.convert = .transportError →
        (docxConvertPhase env pre).out = errOut .PROCESSING_FAILED
        ∧ (docxConvertPhase env pre).workerAlive = false)
      ∧ (env.convert = .completeOk →
        (docxConvertPhase env pre).out.success = true
        ∧ (docxConvertPhase env pre).workerAlive = true) := by
    intro pre
    refine ⟨fun hcv => ?_, fun hcv => ?_, fun hcv => ?_⟩ <;>
      simp [docxConvertPhase, hc, hcv, okOut]
  rcases havail with rfl | ⟨k, hk⟩
  · simpa [docxRun, hf] using hbody [.val 10]
  · cases alive0 with
    | true => simpa [docxRun, hf] using hbody [.val 10]
    | false => simpa [docxRun, hf, hk] using hbody ([.val 10] ++ statusReqs k)

/-- C6 amended witness: a transport-level failure at a freshly initialized
worker yields `PROCESSING_FAILED` with the worker torn down. -/
theorem C6_amended_witness :
    (docxRun ⟨.initOk 0, .transportError, false⟩ [samplePdfFile] false).out
      = errOut .PROCESSING_FAILED :=
  ((C6_amended ⟨.initOk 0, .transportError, false⟩ samplePdfFile false (by decide) rfl
    (Or.inr ⟨0, rfl⟩)).2.1 rfl).1

/-! ### Claim C9 -/

/-- C9 counterexample: in PDF output mode, with a 2-page document whose
first page fails to render and whose second page renders fine, the claim
demands an output initialized from page 2 (the first successfully rendered
page); the code instead creates the output only at loop index 0, so the
whole call fails with `PROCESSING_FAILED` and no page is rendered. -/
theorem C9_counterexample :
    (rasterizeRun ⟨.ok 2, fun p => decide (p = 2), fun _ => (10, 20), false⟩ [samplePdfFile]
        { defaultRasterizeOptions with format := .pdf }).1
      = errOut .PROCESSING_FAILED
    ∧ (⟨.ok 2, fun p => decide (p = 2), fun _ => (10, 20), false⟩ : PdfEnv).renderOk 2 = true := by
  refine ⟨by decide, by decide⟩

/-- C9 amended: in PDF output mode the output document is initialized from
the first *selected* page (loop index 0). When that page renders, every
subsequently rendered page is appended sized to its own dimensions, so the
output is exactly the render-filtered selection mapped to its per-page
millimetre dimensions; when the first selected page fails to render, the
null output makes every later append throw into the per-page catch and the
call fails with `PROCESSING_FAILED` regardless of the remaining pages. -/
theorem C9_amended (env : PdfEnv) (f : JsFile) (opts : RasterizeOptions) (N : Nat)
    (hp : env.parse = .ok N) (hc : env.cancelled = false) (hfmt : opts.format = .pdf)
    (p : Int) (rest : List Int) (hpages : parsePageRange opts.pageRange N = p :: rest) :
    (env.renderOk p = true →
      (rasterizeRun env [f] opts).1
        = okOut (.pdfDoc (((p :: rest).filter env.renderOk).map (pageMm env opts.dpi))))
    ∧ (env.renderOk p = false →
      (rasterizeRun env [f] opts).1 = errOut .PROCESSING_FAILED) := by
  constructor
  · intro hr
    simp [rasterizeRun, hp, hc, hpages, hfmt, (rasterPdfLoop_spec env opts.dpi p rest).1 hr]
  · intro hr
    simp [rasterizeRun, hp, hc, hpages, hfmt, (rasterPdfLoop_spec env opts.dpi p rest).2 hr]

/-- C9 amended witness: a 1-page document rendered to PDF output yields that
page at its own millimetre dimensions. -/
theorem C9_amended_witness :
    (rasterizeRun ⟨.ok 1, fun _ => true, fun _ => (72, 144), false⟩ [samplePdfFile]
        { defaultRasterizeOptions with format := .pdf }).1
      = okOut (.pdfDoc [pageMm ⟨.ok 1, fun _ => true, fun _ => (72, 144), false⟩ 150 1]) := by
  have h := (C9_amended ⟨.ok 1, fun _ => true, fun _ => (72, 144), false⟩ samplePdfFile
    { defaultRasterizeOptions with format := .pdf } 1 rfl rfl rfl 1 [] (by decide)).1 rfl
  rw [h]
  rfl

/-! ### Claim C1 -/

/-- C1 counterexample: the PDF-to-image processor has no failure isolation —
with a 2-page document whose page 1 renders successfully and whose page 2
throws, the whole call resolves with `PROCESSING_FAILED` instead of a
success envelope containing the remaining page. -/
theorem C1_counterexample :
    (pdfToImageRun ⟨.ok 2, fun p => decide (p = 1), fun _ => (1, 1), false⟩ [samplePdfFile]
        ⟨[], 1, 1, false⟩).1
      = errOut .PROCESSING_FAILED
    ∧ (⟨.ok 2, fun p => decide (p = 1), fun _ => (1, 1), false⟩ : PdfEnv).renderOk 1 = true := by
  refine ⟨by decide, by decide⟩

/-- C1 amended: failure isolation holds only in the rasterize processor's
image-mode loop, where a failing page is skipped and the call succeeds with
the remaining pages, `PROCESSING_FAILED` arising exactly when every
selected page fails; in its PDF-mode loop isolation additionally requires
the first selected page to render (its failure nullifies the whole output);
and the PDF-to-image processor aborts the entire call with
`PROCESSING_FAILED` as soon as any single page fails to render. -/
theorem C1_amended :
    (∀ (env : PdfEnv) (f : JsFile) (opts : RasterizeOptions) (N : Nat),
      env.parse = .ok N → env.cancelled = false → opts.format ≠ .pdf →
      parsePageRange opts.pageRange N ≠ [] →
      ((∃ p ∈ parsePageRange opts.pageRange N, env.renderOk p = true) →
        (rasterizeRun env [f] opts).1
          = okOut (.images ((parsePageRange opts.pageRange N).filter env.renderOk)))
      ∧ ((∀ p ∈ parsePageRange opts.pageRange N, env.renderOk p = false) →
        (rasterizeRun env [f] opts).1 = errOut .PROCESSING_FAILED))
    ∧ (∀ (env : PdfEnv) (f : JsFile) (opts : RasterizeOptions) (N : Nat)
        (p : Int) (rest : List Int),
      env.parse = .ok N → env.cancelled = false → opts.format = .pdf →
      parsePageRange opts.pageRange N = p :: rest →
      env.renderOk p = false →
      (rasterizeRun env [f] opts).1 = errOut .PROCESSING_FAILED)
    ∧ (∀ (env : PdfEnv) (f : JsFile) (opts : ImageOptions) (N : Nat),
      env.parse = .ok N → env.cancelled = false → isPdfFile f = true →
      resolvePages opts N ≠ [] → opts.columns * opts.rows = 1 →
      ((∃ p ∈ resolvePages opts N, env.renderOk p = false) →
        (pdfToImageRun env [f] opts).1 = errOut .PROCESSING_FAILED)
      ∧ ((∀ p ∈ resolvePages opts N, env.renderOk p = true) →
        (pdfToImageRun env [f] opts).1
          = okOut ((resolvePages opts N).map (fun p => [p])))) := by
  refine ⟨fun env f opts N hp hc hfmt hne => ⟨fun hex => ?_, fun hall => ?_⟩,
    fun env f opts N p rest hp hc hfmt hpages hr => ?_,
    fun env f opts N hp hc hf hres hk => ⟨fun hex => ?_, fun hall => ?_⟩⟩
  · have hfil : (parsePageRange opts.pageRange N).filter env.renderOk ≠ [] := by
      rw [Ne, List.filter_eq_nil_iff]
      push_neg
      rcases hex with ⟨p, hmem, hr⟩
      exact ⟨p, hmem, by simp [hr]⟩
    simp [rasterizeRun, hp, hc, hne, hfmt, hfil]
  · have hfil : (parsePageRange opts.pageRange N).filter env.renderOk = [] := by
      rw [List.filter_eq_nil_iff]
      intro a ha
      simp [hall a ha]
    simp [rasterizeRun, hp, hc, hne, hfmt, hfil]
  · simp [rasterizeRun, hp, hc, hpages, hfmt,
      (rasterPdfLoop_spec env opts.dpi p rest).2 hr]
  · have hloop : (imgGroupsLoop env (80 / ((resolvePages opts N).length : ℚ)) 0
        ((resolvePages opts N).map (fun p => [p]))).1 = none := by
      apply imgGroupsLoop_fail
      rcases hex with ⟨p, hmem, hr⟩
      exact ⟨[p], List.mem_map_of_mem _ hmem, by simp [groupOk, hr]⟩
    simp [pdfToImageRun, hp, hc, hf, hres, hk, hloop]
  · have hloop : (imgGroupsLoop env (80 / ((resolvePages opts N).length : ℚ)) 0
        ((resolvePages opts N).map (fun p => [p]))).1 = some () := by
      apply imgGroupsLoop_ok
      intro g hg
      rcases List.mem_map.mp hg with ⟨p, hmem, rfl⟩
      simp [groupOk, hall p hmem]
    simp [pdfToImageRun, hp, hc, hf, hres, hk, hloop]

/-- C1 amended witness: rasterize image mode with a 3-page pdf whose page 2
fails renders the remaining two pages into a success envelope. -/
theorem C1_amended_witness :
    (rasterizeRun ⟨.ok 3, fun p => decide (p ≠ 2), fun _ => (1, 1), false⟩ [samplePdfFile]
        defaultRasterizeOptions).1
      = okOut (.images [1, 3]) := by
  have h := (C1_amended.1 ⟨.ok 3, fun p => decide (p ≠ 2), fun _ => (1, 1), false⟩
    samplePdfFile defaultRasterizeOptions 3 rfl rfl (by decide) (by decide)).1
    ⟨1, by decide, by decide⟩
  rw [h]
  decide

/-! ## Claim C2: the progress contract -/

/-- The progress contract of one `process()` call: the percentages delivered
to the callback are non-decreasing; a successful run starts at or below 10
("near 0") and its final report is exactly 100; a failed run never reports
100 (so 100 is reached only on success). -/
def goodProgress {α : Type} (out : Envelope α) (reqs : List ProgReq) : Prop :=
  List.Chain' (· ≤ ·) (delivered reqs)
  ∧ (out.success = true →
      (delivered reqs).getLast? = some 100
      ∧ ∃ q, (delivered reqs).head? = some q ∧ q ≤ 10)
  ∧ (out.success = false → ∀ x ∈ delivered reqs, x < 100)

theorem goodProgress_failure {α : Type} {out : Envelope α} {reqs : List ProgReq}
    (hs : out.success = false) (hv : ∀ q, ProgReq.val q ∈ reqs → q < 100) :
    goodProgress out reqs := by
  refine ⟨clampSeq_chain 0 reqs, fun h => ?_, fun _ => ?_⟩
  · rw [h] at hs; cases hs
  · exact clampSeq_strict_bound (by norm_num) hv

theorem goodProgress_success {α : Type} {out : Envelope α} {reqs : List ProgReq}
    (q0 : ℚ) (mid : List ProgReq)
    (hs : out.success = true)
    (hshape : reqs = .val q0 :: (mid ++ [.val 100]))
    (h0 : 0 ≤ q0) (h10 : q0 ≤ 10)
    (hb : ∀ q, ProgReq.val q ∈ mid → q ≤ 100) :
    goodProgress out reqs := by
  subst hshape
  have hmax : max (0 : ℚ) q0 = q0 := max_eq_right h0
  refine ⟨clampSeq_chain 0 _, fun _ => ⟨?_, ?_⟩, fun h => ?_⟩
  · show (clampSeq 0 (.val q0 :: (mid ++ [.val 100]))).getLast? = some 100
    have hend : clampEnd (max 0 q0) mid ≤ 100 :=
      clampEnd_bound (le_trans (le_of_eq hmax) (le_trans h10 (by norm_num))) hb
    have h100 : clampSeq (clampEnd (max 0 q0) mid) [.val 100] =
        [max (clampEnd (max 0 q0) mid) 100] := rfl
    rw [clampSeq, clampSeq_append, h100, max_eq_right hend, ← List.cons_append]
    exact List.getLast?_concat _
  · refine ⟨q0, ?_, h10⟩
    show (clampSeq 0 (.val q0 :: (mid ++ [.val 100]))).head? = some q0
    rw [clampSeq, hmax]
    rfl
  · rw [h] at hs; cases hs

theorem rasterLoopReqs_lt (n : Nat) : ∀ q, ProgReq.val q ∈ rasterLoopReqs n → q < 100 := by
  intro q hq
  simp only [rasterLoopReqs, List.mem_map, List.mem_range, ProgReq.val.injEq] at hq
  obtain ⟨i, hi, he⟩ := hq
  subst he
  have hn : (0 : ℚ) < (n : ℚ) := by
    have h : 0 < n := by omega
    exact_mod_cast h
  have h1 : (i : ℚ) / (n : ℚ) < 1 := by
    rw [div_lt_one hn]
    exact_mod_cast hi
  have h2 : ((i : ℚ) / (n : ℚ)) * 75 < 1 * 75 :=
    mul_lt_mul_of_pos_right h1 (by norm_num)
  linarith

theorem wmLoopReqs_lt (n : Nat) : ∀ q, ProgReq.val q ∈ wmLoopReqs n → q < 100 := by
  intro q hq
  simp only [wmLoopReqs, List.mem_map, List.mem_range, ProgReq.val.injEq] at hq
  obtain ⟨i, hi, he⟩ := hq
  subst he
  have hn : (0 : ℚ) < (n : ℚ) := by
    have h : 0 < n := by omega
    exact_mod_cast h
  have h1 : ((i : ℚ) + 1) / (n : ℚ) ≤ 1 := by
    rw [div_le_one hn]
    have h : (i : ℚ) + 1 ≤ (n : ℚ) := by exact_mod_cast hi
    exact h
  have h2 : 60 * (((i : ℚ) + 1) / (n : ℚ)) ≤ 60 * 1 :=
    mul_le_mul_of_nonneg_left h1 (by norm_num)
  rw [mul_div_assoc]
  linarith

theorem statusReqs_eq (k : Nat) : ∀ q, ProgReq.val q ∈ statusReqs k → q = 0 := by
  intro q hq
  simp only [statusReqs, List.mem_map, List.mem_range, ProgReq.val.injEq] at hq
  obtain ⟨i, _, he⟩ := hq
  exact he.symm

theorem imgGroupsLoop_reqs (env : PdfEnv) (per : ℚ) :
    ∀ (groups : List (List Int)) (i0 : Nat) (q : ℚ),
      ProgReq.val q ∈ (imgGroupsLoop env per i0 groups).2 →
      ∃ i : Nat, i < i0 + groups.length ∧ q = 15 + (i : ℚ) * per := by
  intro groups
  induction groups with
  | nil => intro i0 q hq; simp [imgGroupsLoop] at hq
  | cons g rest ih =>
    intro i0 q hq
    rw [imgGroupsLoop] at hq
    by_cases hg : groupOk env g
    · rw [if_pos hg] at hq
      simp only [List.mem_cons, ProgReq.val.injEq] at hq
      rcases hq with he | hmem
      · exact ⟨i0, by simp only [List.length_cons]; omega, he⟩
      · obtain ⟨i, hi, he⟩ := ih (i0 + 1) q hmem
        exact ⟨i, by simp only [List.length_cons]; omega, he⟩
    · rw [if_neg hg] at hq
      simp only [List.mem_singleton, ProgReq.val.injEq] at hq
      exact ⟨i0, by simp only [List.length_cons]; omega, hq⟩

/-- Bound on the PDF-to-image loop requests started at index 0 with
`per = 80 / groups.length`: every reported percentage is below 95. -/
theorem imgGroupsLoop_reqs_lt (env : PdfEnv) (groups : List (List Int)) :
    ∀ q, ProgReq.val q ∈ (imgGroupsLoop env (80 / (groups.length : ℚ)) 0 groups).2 →
      q < 95 := by
  intro q hq
  obtain ⟨i, hi, he⟩ := imgGroupsLoop_reqs env _ groups 0 q hq
  subst he
  rw [Nat.zero_add] at hi
  have hn : (0 : ℚ) < (groups.length : ℚ) := by
    have h : 0 < groups.length := by omega
    exact_mod_cast h
  have h1 : (i : ℚ) / (groups.length : ℚ) < 1 := by
    rw [div_lt_one hn]
    exact_mod_cast hi
  have h2 : (i : ℚ) * (80 / (groups.length : ℚ)) = ((i : ℚ) / (groups.length : ℚ)) * 80 := by
    ring
  have h3 : ((i : ℚ) / (groups.length : ℚ)) * 80 < 1 * 80 :=
    mul_lt_mul_of_pos_right h1 (by norm_num)
  rw [h2]
  linarith

theorem watermark_goodProgress (env : PdfEnv) (files : List JsFile) (sel : PagesSel) :
    goodProgress (watermarkRun env files sel).1 (watermarkRun env files sel).2 := by
  have hsucc : ∀ (S : List Int),
      goodProgress (okOut S)
        ([.val 10, .val 20, .val 30] ++ wmLoopReqs S.length ++ [.val 95, .val 100]) := by
    intro S
    refine goodProgress_success 10 ([.val 20, .val 30] ++ wmLoopReqs S.length ++ [.val 95])
      rfl (by simp) (by norm_num) (by norm_num) ?_
    intro q hq
    simp only [List.mem_append, List.mem_cons, List.mem_singleton,
      ProgReq.val.injEq, List.not_mem_nil, or_false] at hq
    rcases hq with ((rfl | rfl) | h) | rfl
    · norm_num
    · norm_num
    · exact le_of_lt (lt_of_lt_of_le (wmLoopReqs_lt _ q h) (by norm_num))
    · norm_num
  obtain ⟨parse, renderOk, dims, cancelled⟩ := env
  cases files with
  | nil =>
    exact goodProgress_failure rfl (fun q hq => absurd hq (List.not_mem_nil _))
  | cons f rest =>
    cases rest with
    | cons g t =>
      exact goodProgress_failure rfl (fun q hq => absurd hq (List.not_mem_nil _))
    | nil =>
      cases parse with
      | encrypted =>
        refine goodProgress_failure rfl ?_
        intro q hq
        simp only [watermarkRun, List.mem_cons, List.mem_singleton, List.not_mem_nil,
          or_false, ProgReq.val.injEq] at hq
        rcases hq with rfl | rfl <;> norm_num
      | corrupt =>
        refine goodProgress_failure rfl ?_
        intro q hq
        simp only [watermarkRun, List.mem_cons, List.mem_singleton, List.not_mem_nil,
          or_false, ProgReq.val.injEq] at hq
        rcases hq with rfl | rfl <;> norm_num
      | ok N =>
        cases cancelled with
        | false =>
          have h : watermarkRun ⟨.ok N, renderOk, dims, false⟩ [f] sel
              = (okOut (getPageIndices sel N),
                 [.val 10, .val 20, .val 30]
                   ++ wmLoopReqs (getPageIndices sel N).length ++ [.val 95, .val 100]) := by
            simp [watermarkRun]
          rw [h]
          exact hsucc (getPageIndices sel N)
        | true =>
          by_cases hsel : getPageIndices sel N = []
          · have h : watermarkRun ⟨.ok N, renderOk, dims, true⟩ [f] sel
                = (okOut (getPageIndices sel N),
                   [.val 10, .val 20, .val 30]
                     ++ wmLoopReqs (getPageIndices sel N).length ++ [.val 95, .val 100]) := by
              simp [watermarkRun, hsel]
            rw [h]
            exact hsucc (getPageIndices sel N)
          · have h : watermarkRun ⟨.ok N, renderOk, dims, true⟩ [f] sel
                = (errOut .PROCESSING_CANCELLED, [.val 10, .val 20, .val 30]) := by
              simp [watermarkRun, hsel]
            rw [h]
            refine goodProgress_failure rfl ?_
            intro q hq
            simp only [List.mem_cons, List.mem_singleton, List.not_mem_nil, or_false,
              ProgReq.val.injEq] at hq
            rcases hq with rfl | rfl | rfl <;> norm_num

theorem docx_goodProgress (env : DocxEnv) (files : List JsFile) (alive0 : Bool) :
    goodProgress (docxRun env files alive0).out (docxRun env files alive0).reqs := by
  obtain ⟨init, convert, cancelled⟩ := env
  have hconv : ∀ (rest : List ProgReq), (∀ q, ProgReq.val q ∈ rest → q = 0) →
      goodProgress (docxConvertPhase ⟨init, convert, cancelled⟩ (.val 10 :: rest)).out
        (docxConvertPhase ⟨init, convert, cancelled⟩ (.val 10 :: rest)).reqs := by
    intro rest hrest
    cases cancelled with
    | true =>
      have h : docxConvertPhase ⟨init, convert, true⟩ (.val 10 :: rest)
          = { out := errOut .PROCESSING_CANCELLED, reqs := .val 10 :: rest,
              workerAlive := true } := by
        simp [docxConvertPhase]
      rw [h]
      refine goodProgress_failure rfl ?_
      intro q hq
      rcases List.mem_cons.mp hq with he | h2
      · cases he; norm_num
      · rw [hrest q h2]; norm_num
    | false =>
      cases convert with
      | completeOk =>
        have h : docxConvertPhase ⟨init, .completeOk, false⟩ (.val 10 :: rest)
            = { out := okOut (),
                reqs := (.val 10 :: rest)
                  ++ [.val 30, .val 5, .val 10, .val 85, .val 90, .val 100],
                workerAlive := true } := by
          simp [docxConvertPhase]
        rw [h]
        refine goodProgress_success 10
          (rest ++ [.val 30, .val 5, .val 10, .val 85, .val 90]) rfl (by simp)
          (by norm_num) (by norm_num) ?_
        intro q hq
        rcases List.mem_append.mp hq with h2 | h2
        · rw [hrest q h2]; norm_num
        · simp only [List.mem_cons, List.mem_singleton, List.not_mem_nil, or_false,
            ProgReq.val.injEq] at h2
          rcases h2 with rfl | rfl | rfl | rfl | rfl <;> norm_num
      | appError =>
        have h : docxConvertPhase ⟨init, .appError, false⟩ (.val 10 :: rest)
            = { out := errOut .PROCESSING_FAILED,
                reqs := (.val 10 :: rest) ++ [.val 30, .val 5, .val 10],
                workerAlive := false } := by
          simp [docxConvertPhase]
        rw [h]
        refine goodProgress_failure rfl ?_
        intro q hq
        rcases List.mem_cons.mp hq with he | h2
        · cases he; norm_num
        · rcases List.mem_append.mp h2 with h3 | h3
          · rw [hrest q h3]; norm_num
          · simp only [List.mem_cons, List.mem_singleton, List.not_mem_nil, or_false,
              ProgReq.val.injEq] at h3
            rcases h3 with rfl | rfl | rfl <;> norm_num
      | transportError =>
        have h : docxConvertPhase ⟨init, .transportError, false⟩ (.val 10 :: rest)
            = { out := errOut .PROCESSING_FAILED,
                reqs := (.val 10 :: rest) ++ [.val 30, .val 5, .val 10],
                workerAlive := false } := by
          simp [docxConvertPhase]
        rw [h]
        refine goodProgress_failure rfl ?_
        intro q hq
        rcases List.mem_cons.mp hq with he | h2
        · cases he; norm_num
        · rcases List.mem_append.mp h2 with h3 | h3
          · rw [hrest q h3]; norm_num
          · simp only [List.mem_cons, List.mem_singleton, List.not_mem_nil, or_false,
              ProgReq.val.injEq] at h3
            rcases h3 with rfl | rfl | rfl <;> norm_num
  cases files with
  | nil =>
    exact goodProgress_failure rfl (fun q hq => absurd hq (List.not_mem_nil _))
  | cons f rest =>
    cases rest with
    | cons g t =>
      exact goodProgress_failure rfl (fun q hq => absurd hq (List.not_mem_nil _))
    | nil =>
      by_cases hf : isPdfFile f
      · cases alive0 with
        | true =>
          have h : docxRun ⟨init, convert, cancelled⟩ [f] true
              = docxConvertPhase ⟨init, convert, cancelled⟩ [.val 10] := by
            simp [docxRun, hf]
          rw [h]
          exact hconv [] (fun q hq => absurd hq (List.not_mem_nil _))
        | false =>
          cases init with
          | initOk k =>
            have h : docxRun ⟨.initOk k, convert, cancelled⟩ [f] false
                = docxConvertPhase ⟨.initOk k, convert, cancelled⟩
                    (.val 10 :: statusReqs k) := by
              simp [docxRun, hf]
            rw [h]
            exact hconv (statusReqs k) (statusReqs_eq k)
          | initFail k =>
            have h : docxRun ⟨.initFail k, convert, cancelled⟩ [f] false
                = { out := errOut .WORKER_FAILED, reqs := .val 10 :: statusReqs k,
                    workerAlive := true } := by
              simp [docxRun, hf, statusReqs]
            rw [h]
            refine goodProgress_failure rfl ?_
            intro q hq
            rcases List.mem_cons.mp hq with he | h2
            · cases he; norm_num
            · rw [statusReqs_eq k q h2]; norm_num
      · have h : docxRun ⟨init, convert, cancelled⟩ [f] alive0
            = { out := errOut .FILE_TYPE_INVALID, reqs := [], workerAlive := alive0 } := by
          simp [docxRun, hf]
        rw [h]
        exact goodProgress_failure rfl (fun q hq => absurd hq (List.not_mem_nil _))

theorem rasterize_goodProgress (env : PdfEnv) (files : List JsFile)
    (opts : RasterizeOptions) :
    goodProgress (rasterizeRun env files opts).1 (rasterizeRun env files opts).2 := by
  have hloopvals : ∀ (n : Nat) (q : ℚ),
      ProgReq.val q ∈ [ProgReq.val 5, .val 10, .val 10, .val 15] ++ rasterLoopReqs n →
      q < 100 := by
    intro n q hq
    rcases List.mem_append.mp hq with h | h
    · simp only [List.mem_cons, List.mem_singleton, List.not_mem_nil, or_false,
        ProgReq.val.injEq] at h
      rcases h with rfl | rfl | rfl | rfl <;> norm_num
    · exact rasterLoopReqs_lt n q h
  have hsucc : ∀ (n : Nat) (res : RasterResult),
      goodProgress (okOut res)
        ([ProgReq.val 5, .val 10, .val 10, .val 15] ++ rasterLoopReqs n
          ++ [.val 92, .val 100]) := by
    intro n res
    refine goodProgress_success 5
      ([.val 10, .val 10, .val 15] ++ rasterLoopReqs n ++ [.val 92]) rfl (by simp)
      (by norm_num) (by norm_num) ?_
    intro q hq
    simp only [List.mem_append, List.mem_cons, List.mem_singleton, List.not_mem_nil,
      or_false, ProgReq.val.injEq] at hq
    rcases hq with ((rfl | rfl | rfl) | h) | rfl
    · norm_num
    · norm_num
    · norm_num
    · exact le_of_lt (rasterLoopReqs_lt n q h)
    · norm_num
  obtain ⟨parse, renderOk, dims, cancelled⟩ := env
  cases files with
  | nil =>
    exact goodProgress_failure rfl (fun q hq => absurd hq (List.not_mem_nil _))
  | cons f rest =>
    cases rest with
    | cons g t =>
      exact goodProgress_failure rfl (fun q hq => absurd hq (List.not_mem_nil _))
    | nil =>
      have h510 : ∀ q : ℚ, ProgReq.val q ∈ [ProgReq.val 5, .val 10] → q < 100 := by
        intro q hq
        simp only [List.mem_cons, List.mem_singleton, List.not_mem_nil, or_false,
          ProgReq.val.injEq] at hq
        rcases hq with rfl | rfl <;> norm_num
      cases parse with
      | encrypted => exact goodProgress_failure rfl h510
      | corrupt => exact goodProgress_failure rfl h510
      | ok N =>
        cases cancelled with
        | true => exact goodProgress_failure rfl h510
        | false =>
          by_cases hpr : parsePageRange opts.pageRange N = []
          · have h : rasterizeRun ⟨.ok N, renderOk, dims, false⟩ [f] opts
                = (errOut .INVALID_OPTIONS, [.val 5, .val 10, .val 10]) := by
              simp [rasterizeRun, hpr]
            rw [h]
            refine goodProgress_failure rfl ?_
            intro q hq
            simp only [List.mem_cons, List.mem_singleton, List.not_mem_nil, or_false,
              ProgReq.val.injEq] at hq
            rcases hq with rfl | rfl | rfl <;> norm_num
          · by_cases hfmt : opts.format = .pdf
            · cases hl : rasterPdfLoop ⟨.ok N, renderOk, dims, false⟩ opts.dpi 0 none
                  (parsePageRange opts.pageRange N) with
              | none =>
                have h : rasterizeRun ⟨.ok N, renderOk, dims, false⟩ [f] opts
                    = (errOut .PROCESSING_FAILED,
                       [.val 5, .val 10, .val 10, .val 15]
                         ++ rasterLoopReqs (parsePageRange opts.pageRange N).length) := by
                  simp [rasterizeRun, hpr, hfmt, hl]
                rw [h]
                exact goodProgress_failure rfl (hloopvals _)
              | some ps =>
                have h : rasterizeRun ⟨.ok N, renderOk, dims, false⟩ [f] opts
                    = (okOut (.pdfDoc ps),
                       [.val 5, .val 10, .val 10, .val 15]
                         ++ rasterLoopReqs (parsePageRange opts.pageRange N).length
                         ++ [.val 92, .val 100]) := by
                  simp [rasterizeRun, hpr, hfmt, hl]
                rw [h]
                exact hsucc _ _
            · by_cases him : (parsePageRange opts.pageRange N).filter renderOk = []
              · have h : rasterizeRun ⟨.ok N, renderOk, dims, false⟩ [f] opts
                    = (errOut .PROCESSING_FAILED,
                       [.val 5, .val 10, .val 10, .val 15]
                         ++ rasterLoopReqs (parsePageRange opts.pageRange N).length) := by
                  simp [rasterizeRun, hpr, hfmt, him]
                rw [h]
                exact goodProgress_failure rfl (hloopvals _)
              · have h : rasterizeRun ⟨.ok N, renderOk, dims, false⟩ [f] opts
                    = (okOut (.images ((parsePageRange opts.pageRange N).filter renderOk)),
                       [.val 5, .val 10, .val 10, .val 15]
                         ++ rasterLoopReqs (parsePageRange opts.pageRange N).length
                         ++ [.val 92, .val 100]) := by
                  simp [rasterizeRun, hpr, hfmt, him]
                rw [h]
                exact hsucc _ _

theorem pdfToImage_goodProgress (env : PdfEnv) (files : List JsFile)
    (opts : ImageOptions) :
    goodProgress (pdfToImageRun env files opts).1 (pdfToImageRun env files opts).2 := by
  have hfail : ∀ (groups : List (List Int)) (c : ErrorCode),
      goodProgress (errOut (α := List (List Int)) c)
        ([ProgReq.val 5, .val 10, .val 15]
          ++ (imgGroupsLoop env (80 / (groups.length : ℚ)) 0 groups).2) := by
    intro groups c
    refine goodProgress_failure rfl ?_
    intro q hq
    rcases List.mem_append.mp hq with h | h
    · simp only [List.mem_cons, List.mem_singleton, List.not_mem_nil, or_false,
        ProgReq.val.injEq] at h
      rcases h with rfl | rfl | rfl <;> norm_num
    · exact lt_of_lt_of_le (imgGroupsLoop_reqs_lt env groups q h) (by norm_num)
  have hsucc : ∀ (groups res : List (List Int)),
      goodProgress (okOut res)
        ([ProgReq.val 5, .val 10, .val 15]
          ++ (imgGroupsLoop env (80 / (groups.length : ℚ)) 0 groups).2
          ++ [.val 95, .val 100]) := by
    intro groups res
    refine goodProgress_success 5
      ([.val 10, .val 15] ++ (imgGroupsLoop env (80 / (groups.length : ℚ)) 0 groups).2
        ++ [.val 95]) rfl (by simp) (by norm_num) (by norm_num) ?_
    intro q hq
    simp only [List.mem_append, List.mem_cons, List.mem_singleton, List.not_mem_nil,
      or_false, ProgReq.val.injEq] at hq
    rcases hq with ((rfl | rfl) | h) | rfl
    · norm_num
    · norm_num
    · exact le_of_lt (lt_of_lt_of_le (imgGroupsLoop_reqs_lt env groups q h) (by norm_num))
    · norm_num
  cases files with
  | nil =>
    exact goodProgress_failure rfl (fun q hq => absurd hq (List.not_mem_nil _))
  | cons f rest =>
    cases rest with
    | cons g t =>
      exact goodProgress_failure rfl (fun q hq => absurd hq (List.not_mem_nil _))
    | nil =>
      by_cases hf : isPdfFile f
      · by_cases hcanc : env.cancelled
        · have h : pdfToImageRun env [f] opts = (errOut .PROCESSING_CANCELLED, [.val 5]) := by
            simp [pdfToImageRun, hf, hcanc]
          rw [h]
          refine goodProgress_failure rfl ?_
          intro q hq
          simp only [List.mem_singleton, ProgReq.val.injEq] at hq
          subst hq
          norm_num
        · have h510 : ∀ q : ℚ, ProgReq.val q ∈ [ProgReq.val 5, .val 10] → q < 100 := by
            intro q hq
            simp only [List.mem_cons, List.mem_singleton, List.not_mem_nil, or_false,
              ProgReq.val.injEq] at hq
            rcases hq with rfl | rfl <;> norm_num
          cases hpar : env.parse with
          | encrypted =>
            have h : pdfToImageRun env [f] opts
                = (errOut .PROCESSING_FAILED, [.val 5, .val 10]) := by
              simp [pdfToImageRun, hf, hcanc, hpar]
            rw [h]
            exact goodProgress_failure rfl h510
          | corrupt =>
            have h : pdfToImageRun env [f] opts
                = (errOut .PROCESSING_FAILED, [.val 5, .val 10]) := by
              simp [pdfToImageRun, hf, hcanc, hpar]
            rw [h]
            exact goodProgress_failure rfl h510
          | ok N =>
            by_cases hres : resolvePages opts N = []
            · have h : pdfToImageRun env [f] opts
                  = (errOut .INVALID_PAGE_RANGE, [.val 5, .val 10]) := by
                simp [pdfToImageRun, hf, hcanc, hpar, hres]
              rw [h]
              exact goodProgress_failure rfl h510
            · by_cases hk : opts.columns * opts.rows = 1
              · cases hl : (imgGroupsLoop env (80 / ((resolvePages opts N).length : ℚ)) 0
                    ((resolvePages opts N).map (fun p => [p]))).1 with
                | none =>
                  have h : pdfToImageRun env [f] opts
                      = (errOut .PROCESSING_FAILED,
                         [.val 5, .val 10, .val 15]
                           ++ (imgGroupsLoop env (80 / ((resolvePages opts N).length : ℚ)) 0
                               ((resolvePages opts N).map (fun p => [p]))).2) := by
                    simp [pdfToImageRun, hf, hcanc, hpar, hres, hk, hl]
                  rw [h]
                  have hlen : ((resolvePages opts N).map
                      (fun p => ([p] : List Int))).length = (resolvePages opts N).length :=
                    List.length_map _ _
                  rw [← hlen]
                  exact hfail _ _
                | some u =>
                  have h : pdfToImageRun env [f] opts
                      = (okOut ((resolvePages opts N).map (fun p => [p])),
                         [.val 5, .val 10, .val 15]
                           ++ (imgGroupsLoop env (80 / ((resolvePages opts N).length : ℚ)) 0
                               ((resolvePages opts N).map (fun p => [p]))).2
                           ++ [.val 95, .val 100]) := by
                    simp [pdfToImageRun, hf, hcanc, hpar, hres, hk, hl]
                  rw [h]
                  have hlen : ((resolvePages opts N).map
                      (fun p => ([p] : List Int))).length = (resolvePages opts N).length :=
                    List.length_map _ _
                  rw [← hlen]
                  exact hsucc _ _
              · cases hl : (imgGroupsLoop env
                    (80 / ((pageGroups (resolvePages opts N) (opts.columns * opts.rows)
                      opts.skipFirstPage).length : ℚ)) 0
                    (pageGroups (resolvePages opts N) (opts.columns * opts.rows)
                      opts.skipFirstPage)).1 with
                | none =>
                  have h : pdfToImageRun env [f] opts
                      = (errOut .PROCESSING_FAILED,
                         [.val 5, .val 10, .val 15]
                           ++ (imgGroupsLoop env
                               (80 / ((pageGroups (resolvePages opts N)
                                 (opts.columns * opts.rows) opts.skipFirstPage).length : ℚ)) 0
                               (pageGroups (resolvePages opts N) (opts.columns * opts.rows)
                                 opts.skipFirstPage)).2) := by
                    simp [pdfToImageRun, hf, hcanc, hpar, hres, hk, hl]
                  rw [h]
                  exact hfail _ _
                | some u =>
                  have h : pdfToImageRun env [f] opts
                      = (okOut (pageGroups (resolvePages opts N) (opts.columns * opts.rows)
                          opts.skipFirstPage),
                         [.val 5, .val 10, .val 15]
                           ++ (imgGroupsLoop env
                               (80 / ((pageGroups (resolvePages opts N)
                                 (opts.columns * opts.rows) opts.skipFirstPage).length : ℚ)) 0
                               (pageGroups (resolvePages opts N) (opts.columns * opts.rows)
                                 opts.skipFirstPage)).2
                           ++ [.val 95, .val 100]) := by
                    simp [pdfToImageRun, hf, hcanc, hpar, hres, hk, hl]
                  rw [h]
                  exact hsucc _ _
      · have h : pdfToImageRun env [f] opts = (errOut .FILE_TYPE_INVALID, []) := by
          simp [pdfToImageRun, hf]
        rw [h]
        exact goodProgress_failure rfl (fun q hq => absurd hq (List.not_mem_nil _))

/-- C2: for every `process()` call of every processor — rasterize,
PDF-to-image, watermark, and the worker-backed PDF-to-DOCX processor — the
sequence of percentages delivered to the progress callback is monotonically
non-decreasing; on a successful call the first reported value is at most 10
(near 0) and the final reported value is exactly 100; on a failed call 100
is never reported, so 100 is reached only on success. -/
theorem C2_progress :
    (∀ (env : PdfEnv) (files : List JsFile) (opts : RasterizeOptions),
      goodProgress (rasterizeRun env files opts).1 (rasterizeRun env files opts).2)
    ∧ (∀ (env : PdfEnv) (files : List JsFile) (opts : ImageOptions),
      goodProgress (pdfToImageRun env files opts).1 (pdfToImageRun env files opts).2)
    ∧ (∀ (env : PdfEnv) (files : List JsFile) (sel : PagesSel),
      goodProgress (watermarkRun env files sel).1 (watermarkRun env files sel).2)
    ∧ (∀ (env : DocxEnv) (files : List JsFile) (alive0 : Bool),
      goodProgress (docxRun env files alive0).out (docxRun env files alive0).reqs) :=
  ⟨rasterize_goodProgress, pdfToImage_goodProgress, watermark_goodProgress,
    docx_goodProgress⟩

/-- C2 witness: a successful PDF-to-DOCX run (two init status messages, a
completing conversion) delivers 100 as its final progress report. -/
theorem C2_progress_witness :
    (delivered (docxRun ⟨.initOk 2, .completeOk, false⟩ [samplePdfFile] false).reqs).getLast?
      = some 100 :=
  ((C2_progress.2.2.2 ⟨.initOk 2, .completeOk, false⟩ [samplePdfFile] false).2.1
    (by decide)).1

end PDFCraft
